import Mathlib

/-!
# Verification of `brestagenda.go`

A shallow embedding of the `brestagenda` crawler/formatter, together with
proofs about its date bucketing, delta formatting, sorting, extraction,
crawl-loop error policy and JSON round-trip.

Modelling conventions:

* Every `time.Time` this program manipulates is a whole day at midnight, so
  times are modelled as `Int` day numbers: the number of days since
  `0001-01-01` (day `0` is the Go zero time `0001-01-01T00:00:00Z`).
  Time-zone offsets are abstracted away.
* The Gregorian calendar conversions performed by the Go standard library
  (`time.Parse`, `Time.Format`, `Time.Date`) are modelled by
  `civilFromDays` / `daysFromCivil`, a year-cascade algorithm in the style
  of Go's own `absDate` (400/100/4/1-year steps) with a March-based month
  extraction.
* Fallible Go functions return `Except GoError` or `Option`.
* HTML documents are modelled by exactly the fields the program reads from
  them; HTTP responses by a status code and such a document.
-/

/-- The scraped event record (`Event` in the source).  `End = 0` is the Go
zero time, which the program uses to mean "no end date". -/
structure Event where
  Title : String
  Desc : String
  Category : String
  Link : String
  Start : Int
  End : Int
deriving DecidableEq

/-! ## Calendar conversions

`civilFromDays` maps a day number to `(year, month, day)`; `daysFromCivil`
is the reverse direction.  The year extraction peels off 400-year eras,
then centuries, 4-year cycles and years, exactly as Go's `absDate` does;
months are extracted from a March-based day-of-year, so that the leap day
is the last day of the shifted year. -/

/-- Days since 0000-03-01 (March-based epoch). -/
def zOf (t : Int) : Int := t + 306

/-- 400-year era of the day number. -/
def eraOf (t : Int) : Int := zOf t / 146097

/-- Day within the 400-year era, in `[0, 146096]`. -/
def doeOf (t : Int) : Int := zOf t - eraOf t * 146097

/-- Raw century quotient, in `[0, 4]`. -/
def n1Of (t : Int) : Int := doeOf t / 36524

/-- Century within the era, in `[0, 3]` (the last day of the era belongs to
century 3, hence the correction term). -/
def cOf (t : Int) : Int := n1Of t - n1Of t / 4

/-- Day within the century, in `[0, 36524]`. -/
def d1Of (t : Int) : Int := doeOf t - 36524 * cOf t

/-- 4-year cycle within the century, in `[0, 24]`. -/
def n2Of (t : Int) : Int := d1Of t / 1461

/-- Day within the 4-year cycle, in `[0, 1460]`. -/
def d2Of (t : Int) : Int := d1Of t - 1461 * n2Of t

/-- Raw year quotient within the 4-year cycle, in `[0, 4]`. -/
def n3Of (t : Int) : Int := d2Of t / 365

/-- Year within the 4-year cycle, in `[0, 3]`. -/
def y1Of (t : Int) : Int := n3Of t - n3Of t / 4

/-- March-based day of year, in `[0, 365]`. -/
def doyOf (t : Int) : Int := d2Of t - 365 * y1Of t

/-- March-based year of the era, in `[0, 399]`. -/
def yoeOf (t : Int) : Int := 100 * cOf t + 4 * n2Of t + y1Of t

/-- March-based month index, in `[0, 11]` (0 = March). -/
def mpOf (t : Int) : Int := (5 * doyOf t + 2) / 153

/-- Day of month, in `[1, 31]`. -/
def ddOf (t : Int) : Int := doyOf t - (153 * mpOf t + 2) / 5 + 1

/-- Civil month, in `[1, 12]`. -/
def mOf (t : Int) : Int := if mpOf t < 10 then mpOf t + 3 else mpOf t - 9

/-- Civil year. -/
def yOf (t : Int) : Int :=
  if mOf t ≤ 2 then yoeOf t + eraOf t * 400 + 1 else yoeOf t + eraOf t * 400

/-- `(year, month, day)` of a day number. -/
def civilFromDays (t : Int) : Int × Int × Int := (yOf t, mOf t, ddOf t)

/-- Day number of a `(year, month, day)` triple. -/
def daysFromCivil (y m d : Int) : Int :=
  let y' := if m ≤ 2 then y - 1 else y
  let era := y' / 400
  let yoe := y' - era * 400
  let mp := (m + 9) % 12
  let doy := (153 * mp + 2) / 5 + d - 1
  let doe := yoe * 365 + yoe / 4 - yoe / 100 + doy
  era * 146097 + doe - 306

/-- Gregorian leap year. -/
def isLeap (y : Int) : Prop := y % 4 = 0 ∧ (y % 100 ≠ 0 ∨ y % 400 = 0)

instance (y : Int) : Decidable (isLeap y) := by unfold isLeap; infer_instance

/-- Length of a month, as validated by Go `time.Parse`. -/
def daysInMonth (y m : Int) : Int :=
  if m = 2 then (if isLeap y then 29 else 28)
  else if m = 4 ∨ m = 6 ∨ m = 9 ∨ m = 11 then 30 else 31

theorem doe_bounds (t : Int) : 0 ≤ doeOf t ∧ doeOf t ≤ 146096 := by
  unfold doeOf eraOf
  omega

theorem n1_bounds (t : Int) : 0 ≤ n1Of t ∧ n1Of t ≤ 4 ∧ (n1Of t = 4 → doeOf t = 146096) := by
  have h := doe_bounds t
  unfold n1Of
  omega

theorem d1_bounds (t : Int) :
    0 ≤ d1Of t ∧ d1Of t ≤ 36524 ∧ (d1Of t = 36524 → cOf t = 3) := by
  have h := doe_bounds t
  unfold d1Of cOf n1Of
  omega

theorem c_bounds (t : Int) : 0 ≤ cOf t ∧ cOf t ≤ 3 := by
  have h := doe_bounds t
  unfold cOf n1Of
  omega

theorem n2_bounds (t : Int) : 0 ≤ n2Of t ∧ n2Of t ≤ 24 := by
  have h := d1_bounds t
  unfold n2Of
  omega

theorem d2_bounds (t : Int) :
    0 ≤ d2Of t ∧ d2Of t ≤ 1460 ∧ (d2Of t = 1460 → n2Of t = 24 → d1Of t = 36524) := by
  have h := d1_bounds t
  unfold d2Of n2Of
  omega

theorem n3_bounds (t : Int) : 0 ≤ n3Of t ∧ n3Of t ≤ 4 ∧ (n3Of t = 4 → d2Of t = 1460) := by
  have h := d2_bounds t
  unfold n3Of
  omega

theorem y1_bounds (t : Int) : 0 ≤ y1Of t ∧ y1Of t ≤ 3 := by
  have h := n3_bounds t
  unfold y1Of
  omega

theorem doy_bounds (t : Int) :
    0 ≤ doyOf t ∧ doyOf t ≤ 365 ∧ (doyOf t = 365 → n3Of t = 4) := by
  have h2 := d2_bounds t
  have h3 := n3_bounds t
  unfold doyOf y1Of n3Of
  omega

theorem yoe_bounds (t : Int) : 0 ≤ yoeOf t ∧ yoeOf t ≤ 399 := by
  have h1 := c_bounds t
  have h2 := n2_bounds t
  have h3 := y1_bounds t
  unfold yoeOf
  omega

theorem mp_bounds (t : Int) : 0 ≤ mpOf t ∧ mpOf t ≤ 11 := by
  have h := doy_bounds t
  unfold mpOf
  omega

theorem doe_decomp (t : Int) :
    doeOf t = 36524 * cOf t + 1461 * n2Of t + 365 * y1Of t + doyOf t := by
  unfold doyOf d2Of d1Of
  ring

theorem era_doe (t : Int) : eraOf t * 146097 + doeOf t = t + 306 := by
  unfold doeOf zOf
  ring

/-- The March-year that ends with day-of-year 365 contains a leap day:
that civil year is divisible by 4 and is not a skipped century year. -/
theorem doy365_leap (t : Int) :
    doyOf t = 365 →
      (yoeOf t + 1) % 4 = 0 ∧ ((yoeOf t + 1) % 100 ≠ 0 ∨ (yoeOf t + 1) % 400 = 0) := by
  intro h
  have h1 := doy_bounds t
  have hn3 : n3Of t = 4 := h1.2.2 h
  have hd2 : d2Of t = 1460 := (n3_bounds t).2.2 hn3
  have hy1 : y1Of t = 3 := by unfold y1Of; omega
  have h2 := d2_bounds t
  have h4 := d1_bounds t
  have h5 := n2_bounds t
  have h6 := c_bounds t
  constructor
  · unfold yoeOf
    omega
  · by_cases h100 : (yoeOf t + 1) % 100 = 0
    · right
      have hn2 : n2Of t = 24 := by
        unfold yoeOf at h100
        omega
      have hd1 : d1Of t = 36524 := h2.2.2 hd2 hn2
      have hc : cOf t = 3 := h4.2.2 hd1
      unfold yoeOf
      omega
    · left
      exact h100

theorem month_range (t : Int) : 1 ≤ mOf t ∧ mOf t ≤ 12 := by
  have h := mp_bounds t
  unfold mOf
  split <;> omega

theorem dd_low (t : Int) : 1 ≤ ddOf t := by
  have h1 := doy_bounds t
  have h2 := mp_bounds t
  unfold ddOf mpOf
  omega

theorem civil_roundTrip (t : Int) : daysFromCivil (yOf t) (mOf t) (ddOf t) = t := by
  have h1 := doe_bounds t
  have h2 := c_bounds t
  have h3 := n2_bounds t
  have h4 := y1_bounds t
  have h5 := doy_bounds t
  have h6 := mp_bounds t
  have h7 := yoe_bounds t
  have h8 := doe_decomp t
  have h9 := era_doe t
  have e1 : yoeOf t = 100 * cOf t + 4 * n2Of t + y1Of t := rfl
  have p1 : (yoeOf t + eraOf t * 400) / 400 = eraOf t := by omega
  have p2 : (yoeOf t + eraOf t * 400 + 1 - 1) / 400 = eraOf t := by omega
  have p3 : (yoeOf t + eraOf t * 400 - (yoeOf t + eraOf t * 400) / 400 * 400) / 4 =
      25 * cOf t + n2Of t := by omega
  have p4 : (yoeOf t + eraOf t * 400 + 1 - 1 -
      (yoeOf t + eraOf t * 400 + 1 - 1) / 400 * 400) / 4 = 25 * cOf t + n2Of t := by omega
  have p5 : (yoeOf t + eraOf t * 400 - (yoeOf t + eraOf t * 400) / 400 * 400) / 100 =
      cOf t := by omega
  have p6 : (yoeOf t + eraOf t * 400 + 1 - 1 -
      (yoeOf t + eraOf t * 400 + 1 - 1) / 400 * 400) / 100 = cOf t := by omega
  have m7 : (mpOf t + 3 + 9) % 12 = mpOf t := by omega
  have m8 : (mpOf t - 9 + 9) % 12 = mpOf t := by omega
  have r1 : yoeOf t + eraOf t * 400 + 1 - 1 = yoeOf t + eraOf t * 400 := by ring
  simp only [daysFromCivil, mOf, yOf, ddOf]
  split <;> split <;> (try rw [r1]) <;> (try rw [m7]) <;> (try rw [m8]) <;> omega

theorem day_range (t : Int) : ddOf t ≤ daysInMonth (yOf t) (mOf t) := by
  have h1 := doy_bounds t
  have h2 := mp_bounds t
  have h3 := doy365_leap t
  have h7 := yoe_bounds t
  have e2 : ddOf t = doyOf t - (153 * mpOf t + 2) / 5 + 1 := rfl
  have e3 : mpOf t = (5 * doyOf t + 2) / 153 := rfl
  have q2 : (yoeOf t + eraOf t * 400 + 1) % 4 = (yoeOf t + 1) % 4 := by omega
  have q3 : (yoeOf t + eraOf t * 400 + 1) % 100 = (yoeOf t + 1) % 100 := by omega
  have q4 : (yoeOf t + eraOf t * 400 + 1) % 400 = (yoeOf t + 1) % 400 := by
    have hera := era_doe t
    have hdoe := doe_bounds t
    omega
  simp only [daysInMonth, isLeap, yOf, mOf]
  split_ifs <;> omega

theorem year_range (t : Int) (hlo : -366 ≤ t) (hhi : t ≤ 3652058) :
    0 ≤ yOf t ∧ yOf t ≤ 9999 := by
  have h1 := doe_bounds t
  have h2 := era_doe t
  have h7 := yoe_bounds t
  have h8 := doe_decomp t
  have h5 := doy_bounds t
  have h6 := mp_bounds t
  have h2b := c_bounds t
  have h3b := n2_bounds t
  have h4b := y1_bounds t
  have e1 : yoeOf t = 100 * cOf t + 4 * n2Of t + y1Of t := rfl
  have e3 : mpOf t = (5 * doyOf t + 2) / 153 := rfl
  have era_lo : -1 ≤ eraOf t := by unfold eraOf zOf; omega
  have era_hi : eraOf t ≤ 24 := by unfold eraOf zOf; omega
  have hlow : eraOf t = -1 → yoeOf t = 399 ∧ 10 ≤ mpOf t := by
    intro hera
    have hdoe : 146037 ≤ doeOf t := by omega
    have hcny : cOf t = 3 ∧ n2Of t = 24 ∧ y1Of t = 3 := by omega
    have hdoy : 306 ≤ doyOf t := by omega
    refine ⟨by omega, by omega⟩
  have hhigh : eraOf t = 24 → yoeOf t = 399 → 10 ≤ mpOf t → False := by
    intro hera hyoe hmp
    have hcny : cOf t = 3 ∧ n2Of t = 24 ∧ y1Of t = 3 := by omega
    have hdoy : 306 ≤ doyOf t := by omega
    omega
  unfold yOf mOf
  split_ifs <;> omega

example : civilFromDays 0 = (1, 1, 1) := by decide
example : daysFromCivil 1 1 1 = 0 := by decide
example : daysFromCivil 1970 1 1 = 719162 := by decide
example : civilFromDays 3652058 = (9999, 12, 31) := by decide
example : civilFromDays (-366) = (0, 1, 1) := by decide
example : civilFromDays (daysFromCivil 2024 2 29) = (2024, 2, 29) := by decide
example : civilFromDays (daysFromCivil 2024 3 1) = (2024, 3, 1) := by decide
example : civilFromDays (daysFromCivil 400 2 29) = (400, 2, 29) := by decide
example : civilFromDays (daysFromCivil 2100 2 28) = (2100, 2, 28) := by decide
example : daysFromCivil 2100 3 1 - daysFromCivil 2100 2 28 = 1 := by decide
example : daysFromCivil 2024 3 1 - daysFromCivil 2024 2 29 = 1 := by decide

/-! ## Date strings

`dateFormat` renders a day number as `YYYY-MM-DD` (Go `Time.Format("2006-01-02")`);
`parseDate` is the model of Go `time.Parse("2006-01-02", s)`: exactly ten
characters, two literal dashes, four/two/two ASCII digits, month in
`[1, 12]`, day at most the month's length. -/

/-- ASCII digit character of `n % 10`-style values. -/
def digitChar (n : Nat) : Char := Char.ofNat (48 + n)

/-- Numeric value of an ASCII digit character, `none` for non-digits. -/
def digitVal (c : Char) : Option Nat :=
  if 48 ≤ c.toNat ∧ c.toNat ≤ 57 then some (c.toNat - 48) else none

/-- Two zero-padded decimal digits. -/
def pad2c (n : Nat) : List Char := [digitChar (n / 10 % 10), digitChar (n % 10)]

/-- Four zero-padded decimal digits. -/
def pad4c (n : Nat) : List Char :=
  [digitChar (n / 1000 % 10), digitChar (n / 100 % 10), digitChar (n / 10 % 10),
    digitChar (n % 10)]

/-- `YYYY-MM-DD` rendering of a day number. -/
def dateFormat (t : Int) : String :=
  String.mk (pad4c (yOf t).toNat ++ '-' :: pad2c (mOf t).toNat ++ '-' :: pad2c (ddOf t).toNat)

/-- Model of Go `time.Parse("2006-01-02", s)`. -/
def parseDate (s : String) : Option Int :=
  match s.data with
  | [y1, y2, y3, y4, h1, m1, m2, h2, d1, d2] =>
    if h1 = '-' ∧ h2 = '-' then
      match digitVal y1, digitVal y2, digitVal y3, digitVal y4,
            digitVal m1, digitVal m2, digitVal d1, digitVal d2 with
      | some a, some b, some c, some d, some e, some f, some g, some h =>
        if 1 ≤ ((e * 10 + f : Nat) : Int) ∧ ((e * 10 + f : Nat) : Int) ≤ 12 ∧
            1 ≤ ((g * 10 + h : Nat) : Int) ∧
            ((g * 10 + h : Nat) : Int) ≤
              daysInMonth ((a * 1000 + b * 100 + c * 10 + d : Nat) : Int)
                ((e * 10 + f : Nat) : Int) then
          some (daysFromCivil ((a * 1000 + b * 100 + c * 10 + d : Nat) : Int)
            ((e * 10 + f : Nat) : Int) ((g * 10 + h : Nat) : Int))
        else none
      | _, _, _, _, _, _, _, _ => none
    else none
  | _ => none

theorem data_mk (l : List Char) : (String.mk l).data = l := rfl

theorem digitVal_digitChar (k : Nat) (hk : k < 10) : digitVal (digitChar k) = some k := by
  interval_cases k <;> decide

theorem parseDate_mk (a b c d e f g h : Nat) (ha : a < 10) (hb : b < 10) (hc : c < 10)
    (hd : d < 10) (he : e < 10) (hf : f < 10) (hg : g < 10) (hh : h < 10) :
    parseDate (String.mk (digitChar a :: digitChar b :: digitChar c :: digitChar d :: '-' ::
        digitChar e :: digitChar f :: '-' :: digitChar g :: digitChar h :: [])) =
      (if 1 ≤ ((e * 10 + f : Nat) : Int) ∧ ((e * 10 + f : Nat) : Int) ≤ 12 ∧
          1 ≤ ((g * 10 + h : Nat) : Int) ∧
          ((g * 10 + h : Nat) : Int) ≤
            daysInMonth ((a * 1000 + b * 100 + c * 10 + d : Nat) : Int)
              ((e * 10 + f : Nat) : Int) then
        some (daysFromCivil ((a * 1000 + b * 100 + c * 10 + d : Nat) : Int)
          ((e * 10 + f : Nat) : Int) ((g * 10 + h : Nat) : Int))
      else none) := by
  simp only [parseDate, data_mk, digitVal_digitChar a ha, digitVal_digitChar b hb,
    digitVal_digitChar c hc, digitVal_digitChar d hd, digitVal_digitChar e he,
    digitVal_digitChar f hf, digitVal_digitChar g hg, digitVal_digitChar h hh,
    and_self, if_true]

theorem parseDate_dateFormat (t : Int) (hlo : -366 ≤ t) (hhi : t ≤ 3652058) :
    parseDate (dateFormat t) = some t := by
  obtain ⟨hy0, hy1⟩ := year_range t hlo hhi
  obtain ⟨hm1, hm2⟩ := month_range t
  have hd1 := dd_low t
  have hd2 := day_range t
  have hrt := civil_roundTrip t
  have hmlt : ∀ x : Nat, x % 10 < 10 := fun x => Nat.mod_lt _ (by decide)
  simp only [dateFormat, pad4c, pad2c, List.cons_append, List.nil_append]
  rw [parseDate_mk _ _ _ _ _ _ _ _ (hmlt _) (hmlt _) (hmlt _) (hmlt _) (hmlt _) (hmlt _)
    (hmlt _) (hmlt _)]
  have hyv : (yOf t).toNat / 1000 % 10 * 1000 + (yOf t).toNat / 100 % 10 * 100 +
      (yOf t).toNat / 10 % 10 * 10 + (yOf t).toNat % 10 = (yOf t).toNat := by
    have : (yOf t).toNat ≤ 9999 := by omega
    omega
  have hmv : (mOf t).toNat / 10 % 10 * 10 + (mOf t).toNat % 10 = (mOf t).toNat := by
    have : (mOf t).toNat ≤ 12 := by omega
    omega
  have hdv : (ddOf t).toNat / 10 % 10 * 10 + (ddOf t).toNat % 10 = (ddOf t).toNat := by
    have h31 : ddOf t ≤ 31 := by
      have := day_range t
      have h2 := month_range t
      unfold daysInMonth at this
      split_ifs at this <;> omega
    omega
  rw [hyv, hmv, hdv, Int.toNat_of_nonneg hy0, Int.toNat_of_nonneg (by omega : (0:Int) ≤ mOf t),
    Int.toNat_of_nonneg (by omega : (0:Int) ≤ ddOf t)]
  rw [if_pos ⟨hm1, hm2, hd1, hd2⟩]
  exact congrArg some hrt

/-! ## RFC 3339 time strings

Go serializes `time.Time` values to JSON as RFC 3339 strings.  Every time
this program handles is a midnight UTC instant, so the rendered form is
always `YYYY-MM-DDT00:00:00Z`, and the decoder is modelled on exactly that
shape. -/

/-- JSON rendering of a (midnight) `time.Time`, e.g. `0001-01-01T00:00:00Z`
for the zero time. -/
def formatRFC3339 (t : Int) : String := dateFormat t ++ "T00:00:00Z"

/-- Model of the RFC 3339 parsing done by `time.Time.UnmarshalJSON`, for the
midnight-UTC instants this program produces. -/
def parseRFC3339 (s : String) : Option Int :=
  if s.data.drop 10 = "T00:00:00Z".data then parseDate (String.mk (s.data.take 10))
  else none

/-! ## Strings and URLs -/

/-- Go `strings.TrimSpace` (over the whitespace characters occurring in this
corpus). -/
def goTrim (s : String) : String :=
  String.mk (((s.data.dropWhile Char.isWhitespace).reverse.dropWhile
    Char.isWhitespace).reverse)

/-- Go `url.Parse` succeeds on the strings of this corpus unless they contain
a control byte. -/
def urlParseOk (s : String) : Bool :=
  s.data.all fun ch => decide (32 ≤ ch.toNat ∧ ch.toNat ≠ 127)

/-- Split `scheme://rest` at the first `://`. -/
def splitScheme : List Char → Option (List Char × List Char)
  | ':' :: '/' :: '/' :: rest => some ([], rest)
  | ch :: rest => (splitScheme rest).map (fun p => (ch :: p.1, p.2))
  | [] => none

/-- The `scheme://host` part of an absolute URL. -/
def hostPart (base : String) : String :=
  match splitScheme base.data with
  | some p => String.mk (p.1 ++ ':' :: '/' :: '/' :: p.2.takeWhile (fun ch => ch ≠ '/'))
  | none => base

/-- Everything up to and including the last `/`. -/
def upToLastSlash (s : String) : String :=
  String.mk ((s.data.reverse.dropWhile (fun ch => ch ≠ '/')).reverse)

/-- Models net/url `Parse`/`ResolveReference`/`String` for the reference
forms occurring on the crawled site: an empty href resolves to the base
itself (RFC 3986 §5.2.2, same-document reference without fragment), an
absolute URL replaces the base, an absolute path is joined to the base's
scheme and host, and a relative path replaces the last path segment.  Dot
segments and protocol-relative references do not occur in this corpus and
are not modelled. -/
def resolveLink (base ref : String) : String :=
  if ref = "" then base
  else if List.isPrefixOf "http://".data ref.data || List.isPrefixOf "https://".data ref.data
    then ref
  else if List.isPrefixOf "/".data ref.data then hostPart base ++ ref
  else upToLastSlash base ++ ref

/-! ## Extraction (`extractEvents`) -/

/-- Errors surfaced by the crawler pipeline (`error` values in the source). -/
inductive GoError where
  | serverError
  | httpStatus (code : Nat)
  | transport
  | urlError (s : String)
  | timeError (s : String)
  | noEventFound
deriving DecidableEq

/-- One `article.listItem` of a listing page, holding exactly the strings
the program reads from it: title, chapeau, category texts, `linkView` href
(`""` when the anchor is missing) and the `datetime` attributes of the
`p.date time` nodes in order (a missing node reads as `""`). -/
structure Item where
  title : String
  desc : String
  category : String
  link : String
  datetimes : List String
deriving DecidableEq

/-- A parsed listing page: its items and the `link[rel=next]` href
(`""` when absent). -/
structure Document where
  items : List Item
  nextHref : String
deriving DecidableEq

/-- `extractEvents` of the source: one `Event` per item in document order;
the first url-parse or date-parse failure aborts the whole page. -/
def extractEvents (base : String) : List Item → Except GoError (List Event)
  | [] => Except.ok []
  | it :: rest =>
    if urlParseOk it.link = false then Except.error (GoError.urlError it.link)
    else
      match parseDate (it.datetimes.getD 0 "") with
      | none => Except.error (GoError.timeError (it.datetimes.getD 0 ""))
      | some s =>
        match (if it.datetimes.getD 1 "" ≠ "" then parseDate (it.datetimes.getD 1 "")
               else some 0) with
        | none => Except.error (GoError.timeError (it.datetimes.getD 1 ""))
        | some e =>
          match extractEvents base rest with
          | Except.error err => Except.error err
          | Except.ok evs =>
            let ev : Event :=
              { Title := goTrim it.title, Desc := goTrim it.desc,
                Category := goTrim it.category, Link := resolveLink base it.link,
                Start := s, End := e }
            Except.ok (ev :: evs)

/-! ## Crawling (`getPage`, `crawlFn`) -/

/-- An HTTP world: what `client.Get` returns for each URL.  A successful
response carries its status code and (parsed) body. -/
inductive HttpResponse where
  | failure
  | success (status : Nat) (body : Document)

/-- `Page` of the source. -/
structure Page where
  Events : List Event
  Next : String
deriving DecidableEq

/-- `getPage` of the source: non-200 statuses are errors, with 500 mapped to
the sentinel `ServerError`; on 200 the body is extracted and the
`rel=next` href returned. -/
def getPage (world : String → HttpResponse) (u base : String) : Except GoError Page :=
  match world u with
  | HttpResponse.failure => Except.error GoError.transport
  | HttpResponse.success status doc =>
    if status ≠ 200 then
      (if status = 500 then Except.error GoError.serverError
       else Except.error (GoError.httpStatus status))
    else
      match extractEvents base doc.items with
      | Except.error e => Except.error e
      | Except.ok events => Except.ok { Events := events, Next := doc.nextHref }

/-- The hard-coded crawl base. -/
def brestBase : String := "https://www.brest.fr"

/-- The hard-coded first listing path. -/
def agendaPath : String := "/actus-agenda/agenda-132.html"

/-- The crawl loop of `crawlFn`: follow `next` links, accumulating events;
`ServerError` (HTTP 500) stops the loop keeping the accumulator, any other
error aborts.  `fuel` bounds the number of iterations; `none` means the
loop did not terminate within `fuel` pages. -/
def crawlLoop (world : String → HttpResponse) (base : String) :
    Nat → String → List Event → Option (Except GoError (List Event))
  | 0, _, _ => none
  | fuel + 1, path, events =>
    if urlParseOk path = false then some (Except.error (GoError.urlError path))
    else
      match getPage world (resolveLink base path) base with
      | Except.error GoError.serverError => some (Except.ok events)
      | Except.error e => some (Except.error e)
      | Except.ok p =>
        if p.Next = "" then some (Except.ok (events ++ p.Events))
        else crawlLoop world base fuel p.Next (events ++ p.Events)

/-- A JSON value (the programs only produce strings, arrays and objects). -/
inductive Json where
  | str (s : String)
  | arr (elems : List Json)
  | obj (members : List (String × Json))

/-- `encoding/json` marshalling of an `Event`: all six exported fields, the
times as RFC 3339 strings. -/
def encodeEvent (e : Event) : Json :=
  Json.obj [("Title", Json.str e.Title), ("Desc", Json.str e.Desc),
    ("Category", Json.str e.Category), ("Link", Json.str e.Link),
    ("Start", Json.str (formatRFC3339 e.Start)), ("End", Json.str (formatRFC3339 e.End))]

/-- The JSON array written by `crawlFn`. -/
def encodeEvents (evs : List Event) : Json := Json.arr (evs.map encodeEvent)

/-- `crawlFn` of the source after the loop: zero accumulated events is a
hard error, otherwise the events are encoded and written.  `some (ok j)`
means the output file was written with content `j`; errors write nothing. -/
def crawlFn (world : String → HttpResponse) (fuel : Nat) :
    Option (Except GoError Json) :=
  match crawlLoop world brestBase fuel agendaPath [] with
  | none => none
  | some (Except.error e) => some (Except.error e)
  | some (Except.ok events) =>
    if events.isEmpty then some (Except.error GoError.noEventFound)
    else some (Except.ok (encodeEvents events))

/-- Whether an `Except` is an error. -/
def isError {ε α : Type} : Except ε α → Bool
  | Except.error _ => true
  | Except.ok _ => false

deriving instance DecidableEq for Except

/-! ## Formatting (`writeHtml`) -/

/-- `HtmlEntry` of the source: one rendered table row. -/
structure HtmlEntry where
  Link : String
  Start : String
  End : String
  DeltaStr : String
  Delta : Int
  Title : String
  Weekday : String
deriving DecidableEq

/-- Which of the two tables an entry is rendered in. -/
inductive Bucket where
  | before
  | after
deriving DecidableEq

/-- `Weekdays` of the source, indexed by Go `Weekday` (0 = Sunday). -/
def Weekdays : List String := ["Di", "Lu", "Ma", "Me", "Je", "Ve", "Sa"]

/-- `Weekdays[t.Weekday()]`: day 0 (0001-01-01) is a Monday. -/
def weekdayName (t : Int) : String := Weekdays.getD ((t + 1) % 7).toNat ""

/-- Go `fmt.Sprintf("%+d", n)`. -/
def signedDecimal (n : Int) : String := if 0 ≤ n then "+" ++ toString n else toString n

/-- `formatDuration` of the source.  Go's `/` truncates toward zero. -/
def formatDuration (days : Int) : String :=
  if days > 30 ∨ days < -30 then signedDecimal (Int.tdiv days 30) ++ "m"
  else signedDecimal days ++ "j"

/-- The delta label of `writeHtml`: empty for a zero delta. -/
def deltaString (delta : Int) : String := if delta ≠ 0 then formatDuration delta else ""

/-- The `endDate` local of `writeHtml`: the event's end date when one is
set (`!ev.End.IsZero()`), else its start date, plus one day — the exclusive
end boundary. -/
def endBoundary (ev : Event) : Int :=
  if ev.End ≠ 0 then ev.End + 1 else ev.Start + 1

/-- The per-event body of `writeHtml`'s loop: `none` when the event is
skipped (`!now.Before(endDate)`), otherwise the bucket chosen by
`startDate.Before(now)` together with the rendered entry. -/
def eventEntry (now : Int) (ev : Event) : Option (Bucket × HtmlEntry) :=
  let startDate := ev.Start
  let endDate := endBoundary ev
  let endDateIn := endDate - 1
  if ¬ now < endDate then none
  else
    let relDate := if startDate < now then endDate else startDate
    let mult : Int := if startDate < now then -1 else 1
    let delta := mult * (relDate - now)
    let entry : HtmlEntry :=
      { Link := ev.Link, Start := dateFormat ev.Start, End := dateFormat endDateIn,
        DeltaStr := deltaString delta, Delta := delta, Title := ev.Title,
        Weekday := weekdayName relDate }
    if ¬ startDate < now then some (Bucket.after, entry) else some (Bucket.before, entry)

/-- The comparison of `sortedEntries.Less` (`Delta <`), as the
non-strict ordering a Go `sort.Sort` leaves the slice in. -/
def entryLE (a b : HtmlEntry) : Bool := decide (a.Delta ≤ b.Delta)

/-- `sort.Sort(sortedEntries(...))`: some permutation ordered by `Delta`.
Go's quicksort is unstable with unspecified tie order; a stable mergesort
is one refinement of it. -/
def sortEntries (l : List HtmlEntry) : List HtmlEntry := l.mergeSort entryLE

/-- The grouping loop of `writeHtml`, in event order. -/
def collectEntries (now : Int) : List Event → List HtmlEntry × List HtmlEntry
  | [] => ([], [])
  | ev :: rest =>
    let p := collectEntries now rest
    match eventEntry now ev with
    | none => p
    | some (Bucket.before, e) => (e :: p.1, p.2)
    | some (Bucket.after, e) => (p.1, e :: p.2)

/-- `Entries` of the source: what the HTML template is rendered from. -/
structure Entries where
  Before : List HtmlEntry
  After : List HtmlEntry
  HasAfter : Bool
deriving DecidableEq

/-- The pure core of `writeHtml`: group, sort both groups by delta, set the
separator flag.  Template execution (pure text substitution) is not
modelled. -/
def writeHtml (now : Int) (events : List Event) : Entries :=
  let before := sortEntries (collectEntries now events).1
  let after := sortEntries (collectEntries now events).2
  { Before := before, After := after,
    HasAfter := decide (0 < before.length) && decide (0 < after.length) }

/-! ## JSON decoding (`loadEvents`) -/

/-- Object field lookup, as `encoding/json` matches keys. -/
def lookupField (ms : List (String × Json)) (k : String) : Option Json :=
  (ms.find? (fun p => p.1 == k)).map (fun p => p.2)

/-- A string field; a missing field leaves the Go zero value `""`. -/
def strField (ms : List (String × Json)) (k : String) : String :=
  match lookupField ms k with
  | some (Json.str s) => s
  | _ => ""

/-- A `time.Time` field; a missing field leaves the zero time, an
unparseable one is a decode error. -/
def timeField (ms : List (String × Json)) (k : String) : Option Int :=
  match lookupField ms k with
  | none => some 0
  | some (Json.str s) => parseRFC3339 s
  | some _ => none

/-- `encoding/json` unmarshalling of one `Event`. -/
def decodeEvent : Json → Option Event
  | Json.obj ms =>
    match timeField ms "Start", timeField ms "End" with
    | some s, some e =>
      let ev : Event :=
        { Title := strField ms "Title", Desc := strField ms "Desc",
          Category := strField ms "Category", Link := strField ms "Link",
          Start := s, End := e }
      some ev
    | _, _ => none
  | _ => none

/-- `loadEvents` of the source, on an already-read JSON value. -/
def loadEvents : Json → Option (List Event)
  | Json.arr xs => xs.mapM decodeEvent
  | _ => none

example : weekdayName 719162 = "Je" := by decide
example : formatDuration 45 = "+1m" := by decide
example : formatDuration (-61) = "-2m" := by decide
example : formatDuration 15 = "+15j" := by decide
example : formatDuration (-15) = "-15j" := by decide
example : dateFormat 0 = "0001-01-01" := by decide
example : formatRFC3339 0 = "0001-01-01T00:00:00Z" := by decide
example : parseDate "2026-05-12" = some (daysFromCivil 2026 5 12) := by decide
example : parseDate "2026-13-01" = none := by decide
example : parseDate "2026-02-30" = none := by decide
example : parseDate "2024-02-29" = some (daysFromCivil 2024 2 29) := by decide
example : parseDate "2023-02-29" = none := by decide
example : parseDate "" = none := by decide
example : parseDate "2026-5-12" = none := by decide
example : parseRFC3339 (formatRFC3339 738000) = some 738000 := by decide
example : goTrim "  a b\t" = "a b" := by decide
example : resolveLink "https://www.brest.fr" "" = "https://www.brest.fr" := by decide
example : resolveLink "https://www.brest.fr" "/evt/123.html" = "https://www.brest.fr/evt/123.html" := by decide

/-! ## Supporting lemmas -/

theorem sortEntries_sorted (l : List HtmlEntry) :
    List.Pairwise (fun a b => a.Delta ≤ b.Delta) (sortEntries l) := by
  have h := @List.sorted_mergeSort HtmlEntry entryLE
    (fun a b c hab hbc => by
      simp only [entryLE, decide_eq_true_eq] at hab hbc ⊢
      omega)
    (fun a b => by
      simp only [entryLE, Bool.or_eq_true, decide_eq_true_eq]
      omega)
    l
  exact h.imp (fun hab => by simpa [entryLE] using hab)

theorem mk_data (s : String) : String.mk s.data = s := rfl

theorem dateFormat_data_length (t : Int) : (dateFormat t).data.length = 10 := by
  simp [dateFormat, pad4c, pad2c, data_mk]

theorem parseRFC3339_formatRFC3339 (t : Int) (hlo : -366 ≤ t) (hhi : t ≤ 3652058) :
    parseRFC3339 (formatRFC3339 t) = some t := by
  have hlen := dateFormat_data_length t
  have hdata : (formatRFC3339 t).data = (dateFormat t).data ++ "T00:00:00Z".data := by
    simp [formatRFC3339, String.data_append]
  rw [parseRFC3339, hdata, List.drop_left' hlen, List.take_left' hlen, if_pos rfl,
    mk_data]
  exact parseDate_dateFormat t hlo hhi

theorem decodeEvent_encodeEvent (e : Event) (hs1 : -366 ≤ e.Start) (hs2 : e.Start ≤ 3652058)
    (he1 : -366 ≤ e.End) (he2 : e.End ≤ 3652058) :
    decodeEvent (encodeEvent e) = some e := by
  simp [encodeEvent, decodeEvent, timeField, strField, lookupField, List.find?,
    parseRFC3339_formatRFC3339 e.Start hs1 hs2, parseRFC3339_formatRFC3339 e.End he1 he2]

theorem extractEvents_error_of_badDate (base : String) (items : List Item)
    (hbad : ∃ it ∈ items, parseDate (it.datetimes.getD 0 "") = none ∨
      (it.datetimes.getD 1 "" ≠ "" ∧ parseDate (it.datetimes.getD 1 "") = none)) :
    isError (extractEvents base items) = true := by
  induction items with
  | nil =>
    obtain ⟨it, hit, _⟩ := hbad
    cases hit
  | cons head rest ih =>
    obtain ⟨it, hit, hb⟩ := hbad
    simp only [extractEvents]
    split
    · rfl
    next hurl =>
      split
      · rfl
      next s hs =>
        split
        · rfl
        next e he' =>
          split
          · rfl
          next evs hevs =>
            exfalso
            rcases List.mem_cons.mp hit with rfl | hit
            · rcases hb with hstart | ⟨hne, hend⟩
              · rw [hstart] at hs
                cases hs
              · rw [if_pos hne, hend] at he'
                cases he'
            · have hr := ih ⟨it, hit, hb⟩
              rw [hevs] at hr
              simp [isError] at hr

/-! ## Claim theorems -/

/-- An event ended in the past (no end date): skipped at `now = 200`. -/
def evPast : Event := ⟨"past", "", "", "", 100, 0⟩

/-- An event running at `now = 200`. -/
def evOngoing : Event := ⟨"ongoing", "", "", "", 100, 250⟩

/-- An event starting after `now = 200` (no end date). -/
def evFuture : Event := ⟨"future", "", "", "", 300, 0⟩

/-- An event starting exactly at `now = 200`. -/
def evToday : Event := ⟨"today", "", "", "", 200, 0⟩

/-- An inconsistent record: end date before a future start date. -/
def evInconsistent : Event := ⟨"weird", "", "", "", 300, 150⟩

/-- C1: for every event processed by `writeHtml`, if `now` is on or after the
exclusive end boundary (end date if present, else start date, plus one day)
the event is skipped; otherwise a start strictly before `now` puts it in the
Before group and a start on or after `now` in the After group. -/
theorem c1_bucketing (now : Int) (ev : Event) :
    (endBoundary ev ≤ now → eventEntry now ev = none)
    ∧ (now < endBoundary ev → ev.Start < now →
        (eventEntry now ev).map Prod.fst = some Bucket.before)
    ∧ (now < endBoundary ev → now ≤ ev.Start →
        (eventEntry now ev).map Prod.fst = some Bucket.after) := by
  refine ⟨fun h => ?_, fun h1 h2 => ?_, fun h1 h2 => ?_⟩ <;>
    simp only [eventEntry] <;>
    generalize endBoundary ev = B at * <;>
    split_ifs <;>
    first
      | rfl
      | (exfalso; omega)

/-- Witness for C1: a finished event is skipped, an ongoing one lands in
Before, a future one in After. -/
theorem c1_bucketing_witness :
    eventEntry 200 evPast = none
    ∧ (eventEntry 200 evOngoing).map Prod.fst = some Bucket.before
    ∧ (eventEntry 200 evFuture).map Prod.fst = some Bucket.after :=
  ⟨(c1_bucketing 200 evPast).1 (by decide),
   (c1_bucketing 200 evOngoing).2.1 (by decide) (by decide),
   (c1_bucketing 200 evFuture).2.2 (by decide) (by decide)⟩

/-- C4 counterexample: an event whose start date equals the current date is
rendered in the After group, not the Before group. -/
theorem c4_counterexample :
    (eventEntry 200 evToday).map Prod.fst = some Bucket.after
    ∧ ¬ (eventEntry 200 evToday).map Prod.fst = some Bucket.before := by
  decide

/-- C4 amended: a rendered event is in the Before group exactly when its
start date is strictly before the current date; events starting today go to
the After group. -/
theorem c4_amended_bucket (now : Int) (ev : Event) (hr : eventEntry now ev ≠ none) :
    ((eventEntry now ev).map Prod.fst = some Bucket.before ↔ ev.Start < now) := by
  simp only [eventEntry] at hr ⊢
  generalize endBoundary ev = B at *
  split_ifs at hr ⊢ <;> simp_all

/-- Witness for the amended C4. -/
theorem c4_amended_bucket_witness :
    eventEntry 200 evOngoing ≠ none
    ∧ ((eventEntry 200 evOngoing).map Prod.fst = some Bucket.before ↔ evOngoing.Start < 200) :=
  ⟨by decide, c4_amended_bucket 200 evOngoing (by decide)⟩

/-- C10: when the day after a present end date is on or before `now`, the
event is skipped even though its start date is strictly after `now`: the
skip test only looks at the end boundary. -/
theorem c10_skip_ignores_start (now : Int) (ev : Event) (hend : ev.End ≠ 0)
    (hpast : ev.End + 1 ≤ now) (_hfuture : now < ev.Start) :
    eventEntry now ev = none := by
  have hb : endBoundary ev = ev.End + 1 := by simp [endBoundary, hend]
  simp only [eventEntry]
  rw [hb]
  split_ifs <;>
    first
      | rfl
      | (exfalso; omega)

/-- Witness for C10: end day 150, start 300, now 200 — dropped. -/
theorem c10_skip_ignores_start_witness :
    evInconsistent.End ≠ 0 ∧ evInconsistent.End + 1 ≤ 200 ∧ (200 : Int) < evInconsistent.Start
    ∧ eventEntry 200 evInconsistent = none :=
  ⟨by decide, by decide, by decide,
   c10_skip_ignores_start 200 evInconsistent (by decide) (by decide) (by decide)⟩

/-- C8: when the end date is absent, the rendered end date string equals the
rendered start date string (for a skipped event both sides are `none`). -/
theorem c8_absent_end (now : Int) (ev : Event) (habs : ev.End = 0) :
    (eventEntry now ev).map (fun p => p.2.End) =
      (eventEntry now ev).map (fun p => p.2.Start) := by
  have hb : endBoundary ev = ev.Start + 1 := by simp [endBoundary, habs]
  have hc : ev.Start + 1 - 1 = ev.Start := by ring
  simp only [eventEntry, hb, hc]
  split_ifs <;> rfl

/-- Witness for C8 on a rendered single-day event. -/
theorem c8_absent_end_witness :
    evFuture.End = 0
    ∧ (eventEntry 200 evFuture).map (fun p => p.2.End) =
        (eventEntry 200 evFuture).map (fun p => p.2.Start) :=
  ⟨rfl, c8_absent_end 200 evFuture rfl⟩

/-- C2: a zero delta renders as the empty string; otherwise a delta of
absolute value above 30 renders as the explicitly signed truncating quotient
`delta/30` with suffix `m`, and as the explicitly signed delta with suffix
`j` otherwise; in particular 45 renders `+1m` and -61 renders `-2m`. -/
theorem c2_delta_format (d : Int) :
    (d = 0 → deltaString d = "")
    ∧ (d ≠ 0 → 30 < |d| → deltaString d = signedDecimal (Int.tdiv d 30) ++ "m")
    ∧ (d ≠ 0 → ¬ 30 < |d| → deltaString d = signedDecimal d ++ "j")
    ∧ deltaString 45 = "+1m" ∧ deltaString (-61) = "-2m" := by
  have habs : 30 < |d| ↔ (d > 30 ∨ d < -30) := by
    rcases le_or_lt 0 d with h0 | h0
    · rw [abs_of_nonneg h0]
      omega
    · rw [abs_of_neg h0]
      omega
  refine ⟨fun h => by simp [deltaString, h], fun h hgt => ?_, fun h hle => ?_,
    by decide, by decide⟩
  · rw [deltaString, if_pos h, formatDuration, if_pos (habs.mp hgt)]
  · rw [deltaString, if_pos h, formatDuration, if_neg (fun hc => hle (habs.mpr hc))]

/-- Witness for C2 exercising all three shapes. -/
theorem c2_delta_format_witness :
    deltaString 45 = "+1m" ∧ deltaString (-61) = "-2m" ∧ deltaString 0 = ""
    ∧ deltaString 15 = signedDecimal 15 ++ "j" :=
  ⟨(c2_delta_format 45).2.2.2.1, (c2_delta_format (-61)).2.2.2.2,
   (c2_delta_format 0).1 rfl,
   (c2_delta_format 15).2.2.1 (by decide) (by decide)⟩

/-- C6: after rendering, both the Before group and the After group are
ordered non-decreasingly by the integer delta field. -/
theorem c6_groups_sorted (now : Int) (events : List Event) :
    List.Pairwise (fun a b => a.Delta ≤ b.Delta) (writeHtml now events).Before
    ∧ List.Pairwise (fun a b => a.Delta ≤ b.Delta) (writeHtml now events).After :=
  ⟨sortEntries_sorted _, sortEntries_sorted _⟩

/-- A listing item with no `linkView` anchor (href reads as `""`). -/
def itemNoLink : Item := ⟨"T", "D", "C", "", ["2026-05-12"]⟩

/-- A listing item whose start datetime is not a valid `YYYY-MM-DD` date. -/
def itemBadDate : Item := ⟨"T", "", "", "", ["2026-13-01"]⟩

/-- C5 counterexample: an item with a missing link extracts without error,
but its `Link` field is the base URL resolved from the empty href, not the
empty string. -/
theorem c5_counterexample :
    extractEvents "https://www.brest.fr" [itemNoLink] =
      Except.ok [⟨"T", "D", "C", "https://www.brest.fr", daysFromCivil 2026 5 12, 0⟩]
    ∧ ("https://www.brest.fr" : String) ≠ "" := by
  decide

/-- C5 amended: a missing or unparseable start datetime, or a present but
unparseable end datetime, on any item makes `extractEvents` fail with no
events; a one-item page with missing description, category and end extracts
to an event with empty strings and zero end date and no error; a missing
link resolves to the base URL itself. -/
theorem c5_amended_extraction (base : String) (items : List Item) :
    ((∃ it ∈ items, parseDate (it.datetimes.getD 0 "") = none ∨
        (it.datetimes.getD 1 "" ≠ "" ∧ parseDate (it.datetimes.getD 1 "") = none)) →
      isError (extractEvents base items) = true)
    ∧ (∀ title link s d, urlParseOk link = true → parseDate s = some d →
        extractEvents base [⟨title, "", "", link, [s]⟩] =
          Except.ok [⟨goTrim title, "", "", resolveLink base link, d, 0⟩])
    ∧ resolveLink base "" = base := by
  refine ⟨extractEvents_error_of_badDate base items, fun title link s d hurl hs => ?_, ?_⟩
  · simp [extractEvents, hurl, hs, goTrim]
  · simp [resolveLink]

/-- Witness for the amended C5. -/
theorem c5_amended_extraction_witness :
    isError (extractEvents "https://www.brest.fr" [itemBadDate]) = true
    ∧ extractEvents "https://www.brest.fr" [⟨" T ", "", "", "/a.html", ["2026-05-12"]⟩] =
        Except.ok [⟨"T", "", "", "https://www.brest.fr/a.html", daysFromCivil 2026 5 12, 0⟩]
    ∧ resolveLink "https://www.brest.fr" "" = "https://www.brest.fr" :=
  ⟨(c5_amended_extraction "https://www.brest.fr" [itemBadDate]).1
      ⟨itemBadDate, by decide, Or.inl (by decide)⟩,
   (c5_amended_extraction "https://www.brest.fr" []).2.1 " T " "/a.html" "2026-05-12"
      (daysFromCivil 2026 5 12) (by decide) (by decide),
   (c5_amended_extraction "https://www.brest.fr" []).2.2⟩

/-- A page body with no items and no next link. -/
def emptyDoc : Document := ⟨[], ""⟩

/-- A world whose every URL answers HTTP 500. -/
def world500 : String → HttpResponse := fun _ => HttpResponse.success 500 emptyDoc

/-- A world whose every URL answers HTTP 404. -/
def world404 : String → HttpResponse := fun _ => HttpResponse.success 404 emptyDoc

/-- C3: an HTTP 500 on a fetched listing page stops the crawl cleanly with
the events accumulated so far and no error; any other non-200 status aborts
the loop with an error, and a loop error makes `crawlFn` fail without
writing any JSON output. -/
theorem c3_crawl_500_policy (world : String → HttpResponse) (base path : String)
    (fuel : Nat) (acc : List Event) (doc : Document) (status : Nat)
    (hurl : urlParseOk path = true) :
    (world (resolveLink base path) = HttpResponse.success 500 doc →
      crawlLoop world base (fuel + 1) path acc = some (Except.ok acc))
    ∧ (status ≠ 200 → status ≠ 500 →
      world (resolveLink base path) = HttpResponse.success status doc →
      crawlLoop world base (fuel + 1) path acc =
        some (Except.error (GoError.httpStatus status)))
    ∧ (∀ e, crawlLoop world brestBase fuel agendaPath [] = some (Except.error e) →
      crawlFn world fuel = some (Except.error e)) := by
  refine ⟨fun h500 => ?_, fun hn200 hn500 hst => ?_, fun e he => ?_⟩
  · simp [crawlLoop, hurl, getPage, h500]
  · simp [crawlLoop, hurl, getPage, hst, hn200, hn500]
  · simp [crawlFn, he]

/-- Witness for C3: a 500 world keeps the accumulator, a 404 world aborts,
and the 404 abort reaches `crawlFn` as an error. -/
theorem c3_crawl_500_policy_witness :
    crawlLoop world500 brestBase 1 agendaPath [evPast] = some (Except.ok [evPast])
    ∧ crawlLoop world404 brestBase 1 agendaPath [] =
        some (Except.error (GoError.httpStatus 404))
    ∧ crawlFn world404 1 = some (Except.error (GoError.httpStatus 404)) :=
  ⟨(c3_crawl_500_policy world500 brestBase agendaPath 0 [evPast] emptyDoc 0
      (by decide)).1 rfl,
   (c3_crawl_500_policy world404 brestBase agendaPath 0 [] emptyDoc 404
      (by decide)).2.1 (by decide) (by decide) rfl,
   (c3_crawl_500_policy world404 brestBase agendaPath 1 [] emptyDoc 404
      (by decide)).2.2 (GoError.httpStatus 404) (by decide)⟩

/-- A world of one page holding one event and no next link. -/
def worldOne : String → HttpResponse :=
  fun _ => HttpResponse.success 200 ⟨[⟨" Fest ", "d", "c", "/evt/1.html", ["2026-05-12"]⟩], ""⟩

/-- A world of one page with no items at all. -/
def worldEmpty : String → HttpResponse := fun _ => HttpResponse.success 200 emptyDoc

/-- The event extracted by `worldOne`. -/
def oneEvent : Event :=
  ⟨"Fest", "d", "c", "https://www.brest.fr/evt/1.html", daysFromCivil 2026 5 12, 0⟩

/-- C7: a crawl that terminates with zero accumulated events fails with a
hard error and writes no JSON; with at least one event the serialized
events are written. -/
theorem c7_empty_crawl_error (world : String → HttpResponse) (fuel : Nat)
    (evs : List Event)
    (h : crawlLoop world brestBase fuel agendaPath [] = some (Except.ok evs)) :
    (evs = [] → crawlFn world fuel = some (Except.error GoError.noEventFound))
    ∧ (evs ≠ [] → crawlFn world fuel = some (Except.ok (encodeEvents evs))) := by
  constructor <;> intro hn <;> simp [crawlFn, h, hn, List.isEmpty_iff]

/-- Witness for C7: an event-free world errors, a one-event world writes the
encoded list. -/
theorem c7_empty_crawl_error_witness :
    crawlFn worldEmpty 1 = some (Except.error GoError.noEventFound)
    ∧ crawlFn worldOne 1 = some (Except.ok (encodeEvents [oneEvent])) :=
  ⟨(c7_empty_crawl_error worldEmpty 1 [] (by decide)).1 rfl,
   (c7_empty_crawl_error worldOne 1 [oneEvent] (by decide)).2 (by decide)⟩

/-- The day numbers whose civil years have four digits: the range Go can
both render with `2006-01-02` and marshal to JSON. -/
def inGoRange (t : Int) : Prop := -366 ≤ t ∧ t ≤ 3652058

instance (t : Int) : Decidable (inGoRange t) := by unfold inGoRange; infer_instance

/-- C9: serializing an `Event` as the crawler does and deserializing it as
the formatter does restores all six fields, including a zero (absent) end
date, for every event whose dates Go can marshal (four-digit years). -/
theorem c9_json_roundtrip (e : Event) (hs : inGoRange e.Start) (he : inGoRange e.End) :
    decodeEvent (encodeEvent e) = some e :=
  decodeEvent_encodeEvent e hs.1 hs.2 he.1 he.2

/-- Witness for C9 on an event with an absent end date. -/
theorem c9_json_roundtrip_witness :
    inGoRange oneEvent.Start ∧ inGoRange oneEvent.End
    ∧ decodeEvent (encodeEvent oneEvent) = some oneEvent :=
  ⟨by decide, by decide, c9_json_roundtrip oneEvent (by decide) (by decide)⟩
